import Mathlib

/-!
Shallow embedding of the `ignite` metric core (MeanSquaredError and
MedianAbsoluteError accumulators) and proofs of the spec's testable
properties against it.

Tensors are modelled as a shape together with flattened rational data and
a gradient-tracking flag; metric accumulators pass their state explicitly
and fallible operations return `Except`.
-/

namespace Ignite

/-- Error taxonomy of the spec: shape mismatch in `update`, not-computable
in `compute`, and collective-communication failure during reduction. -/
inductive MetricError where
  | shapeMismatch
  | notComputable
  | distributedSyncError
deriving DecidableEq

deriving instance DecidableEq for Except

/-- A tensor: a shape, the flattened data (row-major), and the
autograd `requires_grad` flag. -/
structure Tensor where
  shape : List ℕ
  data : List ℚ
  requires_grad : Bool
deriving DecidableEq

/-- Well-formedness: the flattened data has exactly as many elements as the
shape prescribes. -/
def Tensor.wf (t : Tensor) : Prop := t.data.length = t.shape.prod

instance (t : Tensor) : Decidable t.wf :=
  inferInstanceAs (Decidable (_ = _))

/-- `t.detach()`: same data and shape, dropped from the differentiation
graph. -/
def Tensor.detach (t : Tensor) : Tensor := { t with requires_grad := false }

/-- `t.view_as(other)`: reinterpret `t` with the shape of `other`; succeeds
exactly when the element counts agree, otherwise the shape error
propagates. -/
def Tensor.view_as (t other : Tensor) : Except MetricError Tensor :=
  if t.data.length = other.data.length then
    .ok { shape := other.shape, data := t.data, requires_grad := t.requires_grad }
  else .error .shapeMismatch

/-- Elementwise subtraction of two tensors of the same shape; the result is
attached to the graph when either operand is. -/
def Tensor.sub (a b : Tensor) : Tensor :=
  ⟨a.shape, List.zipWith (fun x y => x - y) a.data b.data, a.requires_grad || b.requires_grad⟩

/-- Absolute value of one rational, as `torch.abs` computes it
elementwise. -/
def qabs (a : ℚ) : ℚ := if 0 ≤ a then a else -a

/-- `torch.abs`: elementwise absolute value. -/
def Tensor.abs (a : Tensor) : Tensor :=
  ⟨a.shape, a.data.map qabs, a.requires_grad⟩

/-- Modelled from the spec: `_torch_median` (defined in
`ignite/contrib/metrics/regression/_base.py`, which is not among the
sources). Per the spec the median is obtained by a full sort of all
retained per-sample errors; for an even number of values the two middle
values of the sorted sequence are averaged (forced by the spec's concrete
scenario value 0.625 on six samples). The tensor is flattened first. -/
def _torch_median (t : Tensor) : ℚ :=
  let s := List.insertionSort (· ≤ ·) t.data
  if t.data.length % 2 = 1 then s.getD (t.data.length / 2) 0
  else (s.getD (t.data.length / 2 - 1) 0 + s.getD (t.data.length / 2) 0) / 2

/-- `median_absolute_error_compute_fn` from `median_absolute_error.py`:
`e = torch.abs(y.view_as(y_pred) - y_pred); return _torch_median(e)`. -/
def median_absolute_error_compute_fn (y_pred y : Tensor) : Except MetricError ℚ :=
  match y.view_as y_pred with
  | .error err => .error err
  | .ok yv => .ok (_torch_median (Tensor.abs (Tensor.sub yv y_pred)))

/-! ## The MeanSquaredError accumulator

`MeanSquaredError` itself is not among the sources; only its test file is.
It is modelled from the spec (running sum of squared errors plus example
count, detached accumulation, `sum / count` at `compute`) together with the
behaviour its test asserts (the count advances by the number of rows
`y.shape[0]` of each batch). -/

/-- Modelled from the spec: the `MeanSquaredError` accumulator state — a
running sum of squared errors (a surface tensor, so it carries a
`requires_grad` flag) and the number of accumulated examples. -/
structure MSEState where
  _sum_of_squared_errors : ℚ
  _sse_requires_grad : Bool
  _num_examples : ℕ
deriving DecidableEq

/-- Modelled from the spec: `reset()` sets the state to the identity —
zero sum (detached) and zero count. -/
def mseReset : MSEState :=
  { _sum_of_squared_errors := 0, _sse_requires_grad := false, _num_examples := 0 }

/-- One `update` argument: the `(y_pred, y)` pair. -/
structure MSEBatch where
  y_pred : Tensor
  y : Tensor
deriving DecidableEq

/-- Sum of squared elementwise differences of two flattened data
sequences. -/
def sqErrSum (p t : List ℚ) : ℚ :=
  (List.zipWith (fun a b => (a - b) * (a - b)) p t).sum

/-- Modelled from the spec: `update((y_pred, y))` detaches both tensors,
requires them to be reshape-compatible (equal element counts, else
`ShapeMismatch` before any mutation), then adds the batch's sum of squared
differences into the running sum and advances the count by the number of
rows `y.shape[0]`. -/
def mseUpdate (s : MSEState) (b : MSEBatch) : Except MetricError MSEState :=
  let yp := b.y_pred.detach
  let yt := b.y.detach
  if yt.data.length = yp.data.length then
    .ok { _sum_of_squared_errors := s._sum_of_squared_errors + sqErrSum yp.data yt.data,
          _sse_requires_grad := s._sse_requires_grad || (yp.requires_grad || yt.requires_grad),
          _num_examples := s._num_examples + yt.shape.headD 0 }
  else .error .shapeMismatch

/-- The state after an `update` call: the new state on success, the
untouched previous state when the error propagated. -/
def mseUpdateRun (s : MSEState) (b : MSEBatch) : MSEState :=
  match mseUpdate s b with
  | .ok s2 => s2
  | .error _ => s

/-- A whole accumulation epoch: fold `update` over a batch sequence. -/
def mseRun (s : MSEState) (bs : List MSEBatch) : MSEState :=
  bs.foldl mseUpdateRun s

/-- Modelled from the spec: `compute()` fails with `NotComputable` when the
count is zero, otherwise returns `sum_of_squared_errors / num_examples`
as a plain number (floating-point division, integer count promoted). -/
def mseCompute (s : MSEState) : Except MetricError ℚ :=
  if s._num_examples = 0 then .error .notComputable
  else .ok (s._sum_of_squared_errors / (s._num_examples : ℚ))

/-- Modelled from the spec: `compute()` as a state transformer — a pure
read that returns the result and leaves the persisted accumulator state
untouched. -/
def mseComputeStateful (s : MSEState) : (Except MetricError ℚ) × MSEState :=
  (mseCompute s, s)

/-- Modelled from the spec: the Distributed Reducer's all-reduce-sum over
every scalar component of the accumulator state; afterwards each worker
holds the globally summed values. -/
def mseAllReduce (workers : List MSEState) : MSEState :=
  { _sum_of_squared_errors := (workers.map (·._sum_of_squared_errors)).sum,
    _sse_requires_grad := (workers.map (·._sse_requires_grad)).any (fun x => x),
    _num_examples := (workers.map (·._num_examples)).sum }

/-! ## The EpochMetric accumulator (MedianAbsoluteError)

`MedianAbsoluteError` (in the sources) is an `EpochMetric` with
`median_absolute_error_compute_fn` injected; `EpochMetric` itself is not
among the sources and is modelled from the spec and from the class
docstring ("stores all input data (output and target) in as tensors before
computing a metric"). -/

/-- Modelled from the spec: the `EpochMetric` accumulator retains every
prediction and target seen since the last reset, as one unbounded
sequence each (batches are concatenated along their first dimension). -/
structure EpochMetricState where
  _predictions : List ℚ
  _targets : List ℚ
deriving DecidableEq

/-- Modelled from the spec: `reset()` empties the retained sequences. -/
def emReset : EpochMetricState := ⟨[], []⟩

/-- Modelled from the spec: `update((y_pred, y))` checks the shapes (equal
element counts, else `ShapeMismatch` before any mutation), detaches, and
appends the batch data to the retained sequences. -/
def emUpdate (s : EpochMetricState) (y_pred y : Tensor) : Except MetricError EpochMetricState :=
  if y_pred.data.length = y.data.length then
    .ok ⟨s._predictions ++ y_pred.detach.data, s._targets ++ y.detach.data⟩
  else .error .shapeMismatch

/-- The state after an `EpochMetric.update` call: the new state on success,
the untouched previous state when the error propagated. -/
def emUpdateRun (s : EpochMetricState) (y_pred y : Tensor) : EpochMetricState :=
  match emUpdate s y_pred y with
  | .ok s2 => s2
  | .error _ => s

/-- A whole accumulation epoch for an `EpochMetric`. -/
def emRun (s : EpochMetricState) (pairs : List (Tensor × Tensor)) : EpochMetricState :=
  pairs.foldl (fun st pr => emUpdateRun st pr.1 pr.2) s

/-- Modelled from the spec: `EpochMetric.compute()` fails with
`NotComputable` when nothing is retained, otherwise applies the injected
compute function to the whole retained data. -/
def emCompute (compute_fn : Tensor → Tensor → Except MetricError ℚ)
    (s : EpochMetricState) : Except MetricError ℚ :=
  if s._predictions.length = 0 then .error .notComputable
  else compute_fn ⟨[s._predictions.length], s._predictions, false⟩
                  ⟨[s._targets.length], s._targets, false⟩

/-- `MedianAbsoluteError.compute()`: the `EpochMetric` compute with
`median_absolute_error_compute_fn` injected, as in `MedianAbsoluteError`'s
constructor. -/
def mdaeCompute : EpochMetricState → Except MetricError ℚ :=
  emCompute median_absolute_error_compute_fn

/-! ## Batch concatenation (for partition statements) -/

/-- Concatenation of two tensors along the first dimension. -/
def Tensor.vcat (a b : Tensor) : Tensor :=
  ⟨(a.shape.headD 0 + b.shape.headD 0) :: a.shape.tail,
   a.data ++ b.data, a.requires_grad || b.requires_grad⟩

/-- The empty tensor (zero rows). -/
def emptyTensor : Tensor := ⟨[0], [], false⟩

/-- Concatenation of two `(y_pred, y)` batches along the first
dimension. -/
def MSEBatch.vcat (a b : MSEBatch) : MSEBatch :=
  ⟨a.y_pred.vcat b.y_pred, a.y.vcat b.y⟩

/-- The whole dataset of a batch sequence as one batch. -/
def joinBatches (bs : List MSEBatch) : MSEBatch :=
  bs.foldr MSEBatch.vcat ⟨emptyTensor, emptyTensor⟩

/-- A batch `update` accepts: prediction and target have equal element
counts. -/
def MSEBatch.valid (b : MSEBatch) : Prop :=
  b.y.data.length = b.y_pred.data.length

instance (b : MSEBatch) : Decidable b.valid :=
  inferInstanceAs (Decidable (_ = _))

/-- The batch's contribution to the running sum of squared errors. -/
def batchSq (b : MSEBatch) : ℚ := sqErrSum b.y_pred.data b.y.data

/-- The batch's contribution to the example count (`y.shape[0]`). -/
def batchCount (b : MSEBatch) : ℕ := b.y.shape.headD 0

/-! ## Characterization of an accumulation epoch -/

lemma mseUpdateRun_valid (s : MSEState) (b : MSEBatch) (h : b.valid) :
    mseUpdateRun s b =
      ⟨s._sum_of_squared_errors + batchSq b, s._sse_requires_grad,
        s._num_examples + batchCount b⟩ := by
  unfold MSEBatch.valid at h
  simp [mseUpdateRun, mseUpdate, Tensor.detach, h, batchSq, batchCount]

lemma mseRun_characterize (bs : List MSEBatch) (h : ∀ b ∈ bs, b.valid) (s : MSEState) :
    mseRun s bs =
      ⟨s._sum_of_squared_errors + (bs.map batchSq).sum, s._sse_requires_grad,
        s._num_examples + (bs.map batchCount).sum⟩ := by
  induction bs generalizing s with
  | nil => simp [mseRun]
  | cons b rest ih =>
    have hrun : mseRun s (b :: rest) = mseRun (mseUpdateRun s b) rest := rfl
    rw [hrun, mseUpdateRun_valid s b (h b (by simp)),
      ih (fun x hx => h x (by simp [hx]))]
    simp [add_assoc]

lemma sqErrSum_append (p1 t1 p2 t2 : List ℚ) (h : p1.length = t1.length) :
    sqErrSum (p1 ++ p2) (t1 ++ t2) = sqErrSum p1 t1 + sqErrSum p2 t2 := by
  unfold sqErrSum
  rw [List.zipWith_append _ _ _ _ _ h, List.sum_append]

lemma joinBatches_cons (b : MSEBatch) (bs : List MSEBatch) :
    joinBatches (b :: bs) = MSEBatch.vcat b (joinBatches bs) := rfl

lemma joinBatches_valid (bs : List MSEBatch) (h : ∀ b ∈ bs, b.valid) :
    (joinBatches bs).valid := by
  induction bs with
  | nil => simp [joinBatches, emptyTensor, MSEBatch.valid]
  | cons b rest ih =>
    have hb := h b (by simp)
    have hr := ih (fun x hx => h x (by simp [hx]))
    unfold MSEBatch.valid at *
    rw [joinBatches_cons]
    simp [MSEBatch.vcat, Tensor.vcat, hb, hr]

lemma joinBatches_count (bs : List MSEBatch) :
    batchCount (joinBatches bs) = (bs.map batchCount).sum := by
  induction bs with
  | nil => simp [joinBatches, emptyTensor, batchCount]
  | cons b rest ih =>
    rw [joinBatches_cons]
    simp [MSEBatch.vcat, Tensor.vcat, batchCount] at *
    omega

lemma joinBatches_sq (bs : List MSEBatch) (h : ∀ b ∈ bs, b.valid) :
    batchSq (joinBatches bs) = (bs.map batchSq).sum := by
  induction bs with
  | nil => simp [joinBatches, emptyTensor, batchSq, sqErrSum]
  | cons b rest ih =>
    have hb := h b (by simp)
    unfold MSEBatch.valid at hb
    rw [joinBatches_cons]
    show sqErrSum (b.y_pred.data ++ (joinBatches rest).y_pred.data)
        (b.y.data ++ (joinBatches rest).y.data) = _
    rw [sqErrSum_append _ _ _ _ hb.symm]
    have hr := ih (fun x hx => h x (by simp [hx]))
    rw [show sqErrSum (joinBatches rest).y_pred.data (joinBatches rest).y.data
          = batchSq (joinBatches rest) from rfl, hr]
    show batchSq b + _ = _
    simp

/-! ## Claim theorems -/

/-- C1: Batch-size invariance — for every valid dataset of
prediction/target pairs and every partition of it into smaller batches,
calling `update` once with the full dataset and then `compute()` yields the
same result as calling `update` once per batch of the partition (after the
same `reset()`) and then `compute()`. Stated for an arbitrary batch
sequence `bs` (the partition) whose concatenation along the first
dimension is the full dataset. -/
theorem mse_batch_size_invariance (bs : List MSEBatch) (h : ∀ b ∈ bs, b.valid) :
    mseRun mseReset bs = mseUpdateRun mseReset (joinBatches bs) ∧
    mseCompute (mseRun mseReset bs)
      = mseCompute (mseUpdateRun mseReset (joinBatches bs)) := by
  have h1 : mseRun mseReset bs
      = ⟨(bs.map batchSq).sum, false, (bs.map batchCount).sum⟩ := by
    rw [mseRun_characterize bs h]
    simp [mseReset]
  have h2 : mseUpdateRun mseReset (joinBatches bs)
      = ⟨batchSq (joinBatches bs), false, batchCount (joinBatches bs)⟩ := by
    rw [mseUpdateRun_valid _ _ (joinBatches_valid bs h)]
    simp [mseReset]
  have hst : mseRun mseReset bs = mseUpdateRun mseReset (joinBatches bs) := by
    rw [h1, h2, joinBatches_sq bs h, joinBatches_count bs]
  exact ⟨hst, by rw [hst]⟩

/-- Concrete partition for the batch-size invariance witness: the
six-sample dataset of the spec's scenario, split 2 + 4. -/
def wbatch1 : MSEBatch := ⟨⟨[2], [0, 3/4], false⟩, ⟨[2], [0, 1], false⟩⟩

/-- Second batch of the concrete partition. -/
def wbatch2 : MSEBatch := ⟨⟨[4], [3/2, 9/4, 3, 15/4], false⟩, ⟨[4], [2, 3, 4, 5], false⟩⟩

/-- Witness for C1 at a concrete two-batch partition. -/
theorem mse_batch_size_invariance_witness :
    (∀ b ∈ [wbatch1, wbatch2], b.valid) ∧
    (mseRun mseReset [wbatch1, wbatch2]
        = mseUpdateRun mseReset (joinBatches [wbatch1, wbatch2]) ∧
      mseCompute (mseRun mseReset [wbatch1, wbatch2])
        = mseCompute (mseUpdateRun mseReset (joinBatches [wbatch1, wbatch2]))) :=
  ⟨by decide, mse_batch_size_invariance [wbatch1, wbatch2] (by decide)⟩

/-- C2: Distributed equivalence — for every sharding of a dataset across
workers into disjoint shards, after the all-reduce-sum performed inside
`compute()`, every worker holds the globally reduced state, and
`compute()` on it returns the same value as running the entire dataset
through a single worker (here proved as exact equality, which implies
agreement within any floating-point tolerance such as 1e-6); moreover the
reduction is a no-op (identity) on a single worker, so single-worker mode
is indistinguishable from the multi-worker case reduced to one worker. -/
theorem mse_distributed_equivalence (shards : List (List MSEBatch))
    (h : ∀ sh ∈ shards, ∀ b ∈ sh, b.valid) :
    mseAllReduce (shards.map (fun sh => mseRun mseReset sh))
        = mseRun mseReset shards.flatten ∧
    mseCompute (mseAllReduce (shards.map (fun sh => mseRun mseReset sh)))
        = mseCompute (mseRun mseReset shards.flatten) ∧
    (∀ s : MSEState, mseAllReduce [s] = s) := by
  have hw : shards.map (fun sh => mseRun mseReset sh)
      = shards.map (fun sh =>
          (⟨(sh.map batchSq).sum, false, (sh.map batchCount).sum⟩ : MSEState)) := by
    apply List.map_congr_left
    intro sh hsh
    rw [mseRun_characterize sh (h sh hsh)]
    simp [mseReset]
  have hjoin : mseRun mseReset shards.flatten
      = ⟨(shards.flatten.map batchSq).sum, false,
          (shards.flatten.map batchCount).sum⟩ := by
    rw [mseRun_characterize _ ?_]
    · simp [mseReset]
    · intro b hb
      obtain ⟨sh, hsh, hbsh⟩ := List.mem_flatten.mp hb
      exact h sh hsh b hbsh
  have hred : mseAllReduce (shards.map (fun sh => mseRun mseReset sh))
      = ⟨(shards.flatten.map batchSq).sum, false,
          (shards.flatten.map batchCount).sum⟩ := by
    rw [hw]
    unfold mseAllReduce
    simp [List.map_map, Function.comp_def, List.map_flatten, List.sum_flatten]
  have hst : mseAllReduce (shards.map (fun sh => mseRun mseReset sh))
      = mseRun mseReset shards.flatten := by rw [hred, hjoin]
  refine ⟨hst, by rw [hst], ?_⟩
  intro s
  simp [mseAllReduce]

/-- Witness for C2: two workers, one valid one-batch shard each. -/
theorem mse_distributed_equivalence_witness :
    (∀ sh ∈ [[wbatch1], [wbatch2]], ∀ b ∈ sh, b.valid) ∧
    (mseAllReduce ([[wbatch1], [wbatch2]].map (fun sh => mseRun mseReset sh))
        = mseRun mseReset [[wbatch1], [wbatch2]].flatten ∧
      mseCompute (mseAllReduce ([[wbatch1], [wbatch2]].map (fun sh => mseRun mseReset sh)))
        = mseCompute (mseRun mseReset [[wbatch1], [wbatch2]].flatten) ∧
      (∀ s : MSEState, mseAllReduce [s] = s)) :=
  ⟨by decide, mse_distributed_equivalence [[wbatch1], [wbatch2]] (by decide)⟩

/-- C3: For every metric kind, `compute()` called when no update has
happened since the last `reset()` (zero accumulated samples, including
immediately after construction or immediately after `reset()`) fails with
the `NotComputable` error; since the result is the `error` branch of
`Except`, no substitute value such as 0 or NaN is returned. -/
theorem compute_zero_samples_not_computable (s : MSEState) (t : EpochMetricState)
    (hs : s._num_examples = 0) (ht : t._predictions = []) :
    mseCompute s = .error .notComputable ∧
    mdaeCompute t = .error .notComputable ∧
    mseCompute mseReset = .error .notComputable ∧
    mdaeCompute emReset = .error .notComputable := by
  refine ⟨?_, ?_, ?_, ?_⟩ <;>
    simp [mseCompute, mdaeCompute, emCompute, hs, ht, mseReset, emReset]

/-- Witness for C3 at the freshly reset states of both metric kinds. -/
theorem compute_zero_samples_not_computable_witness :
    (mseReset._num_examples = 0 ∧ emReset._predictions = []) ∧
    (mseCompute mseReset = .error .notComputable ∧
      mdaeCompute emReset = .error .notComputable ∧
      mseCompute mseReset = .error .notComputable ∧
      mdaeCompute emReset = .error .notComputable) :=
  ⟨⟨rfl, rfl⟩, compute_zero_samples_not_computable mseReset emReset rfl rfl⟩

/-- The spec scenario's predictions: `[0,1,2,3,4,5] * 0.75`. -/
def specPreds : Tensor := ⟨[6], [0, 3/4, 3/2, 9/4, 3, 15/4], false⟩

/-- The spec scenario's targets: `[0,1,2,3,4,5]`. -/
def specTargets : Tensor := ⟨[6], [0, 1, 2, 3, 4, 5], false⟩

/-- C4 counterexample: on predictions `[0,1,2,3,4,5]*0.75` and targets
`[0,1,2,3,4,5]`, the mean-squared-error metric does NOT return 0.609375:
the sum of squared errors is `(1/16)(0+1+4+9+16+25) = 55/16` and the count
is 6, so `compute()` returns `55/96 = 0.5729166…`. -/
theorem concrete_scenario_counterexample :
    mseCompute (mseUpdateRun mseReset ⟨specPreds, specTargets⟩) ≠ .ok (0.609375 : ℚ) := by
  norm_num [mseCompute, mseUpdateRun, mseUpdate, mseReset, specPreds, specTargets,
    Tensor.detach, sqErrSum]

/-- C4 (amended): on the spec scenario's input the mean-squared-error
metric returns exactly `55/96` (≈ 0.5729166), and the
median-absolute-error metric returns exactly `0.625`. -/
theorem concrete_scenario_values :
    mseCompute (mseUpdateRun mseReset ⟨specPreds, specTargets⟩) = .ok (55/96 : ℚ) ∧
    mdaeCompute (emUpdateRun emReset specPreds specTargets) = .ok (0.625 : ℚ) := by
  constructor
  · norm_num [mseCompute, mseUpdateRun, mseUpdate, mseReset, specPreds, specTargets,
      Tensor.detach, sqErrSum]
  · norm_num [mdaeCompute, emCompute, emUpdateRun, emUpdate, emReset, specPreds,
      specTargets, Tensor.detach, median_absolute_error_compute_fn, Tensor.view_as,
      Tensor.sub, Tensor.abs, qabs, _torch_median,
      List.insertionSort, List.orderedInsert, List.getD]

/-- C5: Atomicity of `update` on shape errors — for every accumulator
state (of either metric kind) and every prediction/target pair whose
element counts disagree, `update` fails with `ShapeMismatch` and the
accumulator state after the call is exactly the state before it. -/
theorem update_shape_mismatch_atomic (ms : MSEState) (es : EpochMetricState)
    (p t : Tensor) (h : t.data.length ≠ p.data.length) :
    mseUpdate ms ⟨p, t⟩ = .error .shapeMismatch ∧
    mseUpdateRun ms ⟨p, t⟩ = ms ∧
    emUpdate es p t = .error .shapeMismatch ∧
    emUpdateRun es p t = es := by
  have h2 : ¬(p.data.length = t.data.length) := fun hh => h hh.symm
  refine ⟨?_, ?_, ?_, ?_⟩ <;>
    simp [mseUpdate, mseUpdateRun, emUpdate, emUpdateRun, Tensor.detach, h, h2]

/-- Witness for C5: a one-element prediction against a two-element
target. -/
theorem update_shape_mismatch_atomic_witness :
    ((⟨[2], [0, 0], false⟩ : Tensor).data.length ≠ (⟨[1], [0], false⟩ : Tensor).data.length) ∧
    (mseUpdate mseReset ⟨⟨[1], [0], false⟩, ⟨[2], [0, 0], false⟩⟩ = .error .shapeMismatch ∧
      mseUpdateRun mseReset ⟨⟨[1], [0], false⟩, ⟨[2], [0, 0], false⟩⟩ = mseReset ∧
      emUpdate emReset ⟨[1], [0], false⟩ ⟨[2], [0, 0], false⟩ = .error .shapeMismatch ∧
      emUpdateRun emReset ⟨[1], [0], false⟩ ⟨[2], [0, 0], false⟩ = emReset) :=
  ⟨by decide,
    update_shape_mismatch_atomic mseReset emReset ⟨[1], [0], false⟩ ⟨[2], [0, 0], false⟩
      (by decide)⟩

lemma mseUpdateRun_rg (s : MSEState) (b : MSEBatch) :
    (mseUpdateRun s b)._sse_requires_grad = s._sse_requires_grad := by
  unfold mseUpdateRun mseUpdate
  by_cases hc : b.y.data.length = b.y_pred.data.length <;>
    simp [Tensor.detach, hc]

/-- C6: Gradient-detachment invariant — for every sequence of `update`
calls from `reset()`, including calls whose prediction tensor is part of
an active differentiation graph (`requires_grad = true`), the
accumulator's internal sum never requires gradient tracking: the inputs
are detached before the accumulation, so the flag is false after every
update. -/
theorem mse_accumulator_detached (bs : List MSEBatch) :
    (mseRun mseReset bs)._sse_requires_grad = false := by
  suffices hgen : ∀ s : MSEState, (mseRun s bs)._sse_requires_grad = s._sse_requires_grad by
    rw [hgen]
    rfl
  induction bs with
  | nil => intro s; rfl
  | cons b rest ih =>
    intro s
    rw [show mseRun s (b :: rest) = mseRun (mseUpdateRun s b) rest from rfl, ih,
      mseUpdateRun_rg]

/-- C7: Idempotence of `compute` — for every accumulator state with at
least one accumulated sample, `compute()` succeeds with some value, a
second `compute()` on the state the first call left behind returns the
same value, and the persisted accumulator state is unchanged by the
call. -/
theorem mse_compute_idempotent (s : MSEState) (h : 1 ≤ s._num_examples) :
    (mseComputeStateful s).2 = s ∧
    (mseComputeStateful ((mseComputeStateful s).2)).1 = (mseComputeStateful s).1 ∧
    ∃ q : ℚ, (mseComputeStateful s).1 = .ok q := by
  refine ⟨rfl, rfl, ?_⟩
  have hne : s._num_examples ≠ 0 := by omega
  refine ⟨s._sum_of_squared_errors / (s._num_examples : ℚ), ?_⟩
  simp [mseComputeStateful, mseCompute, hne]

/-- Witness for C7 at a concrete one-sample state. -/
theorem mse_compute_idempotent_witness :
    1 ≤ (⟨1, false, 2⟩ : MSEState)._num_examples ∧
    ((mseComputeStateful ⟨1, false, 2⟩).2 = ⟨1, false, 2⟩ ∧
      (mseComputeStateful ((mseComputeStateful ⟨1, false, 2⟩).2)).1
        = (mseComputeStateful ⟨1, false, 2⟩).1 ∧
      ∃ q : ℚ, (mseComputeStateful ⟨1, false, 2⟩).1 = .ok q) :=
  ⟨by decide, mse_compute_idempotent ⟨1, false, 2⟩ (by decide)⟩

lemma emRun_characterize (pairs : List (Tensor × Tensor))
    (hv : ∀ pr ∈ pairs, pr.1.data.length = pr.2.data.length) (s : EpochMetricState) :
    emRun s pairs =
      ⟨s._predictions ++ (pairs.map (fun pr => pr.1.data)).flatten,
        s._targets ++ (pairs.map (fun pr => pr.2.data)).flatten⟩ := by
  induction pairs generalizing s with
  | nil => simp [emRun]
  | cons pr rest ih =>
    have hstep : emUpdateRun s pr.1 pr.2
        = ⟨s._predictions ++ pr.1.data, s._targets ++ pr.2.data⟩ := by
      simp [emUpdateRun, emUpdate, Tensor.detach, hv pr (by simp)]
    rw [show emRun s (pr :: rest) = emRun (emUpdateRun s pr.1 pr.2) rest from rfl, hstep,
      ih (fun x hx => hv x (by simp [hx]))]
    simp [List.append_assoc]

lemma flatten_len_eq (pairs : List (Tensor × Tensor))
    (hv : ∀ pr ∈ pairs, pr.1.data.length = pr.2.data.length) :
    ((pairs.map (fun pr => pr.2.data)).flatten).length
      = ((pairs.map (fun pr => pr.1.data)).flatten).length := by
  rw [List.length_flatten, List.length_flatten, List.map_map, List.map_map]
  apply congrArg List.sum
  apply List.map_congr_left
  intro pr hpr
  simpa [Function.comp] using (hv pr hpr).symm

/-- C8: For the median-based metric, the accumulator retains the raw
per-sample data for every sample seen since the last reset (the retained
sequences are exactly the concatenation of all batches, growing without
bound in the total sample count M), and `compute()` returns the median —
obtained by a full sort inside `_torch_median` — of the absolute errors
`|target_j - prediction_j|` over all M retained samples. -/
theorem mdae_retention_and_median (pairs : List (Tensor × Tensor))
    (hv : ∀ pr ∈ pairs, pr.1.data.length = pr.2.data.length)
    (hne : (pairs.map (fun pr => pr.1.data)).flatten ≠ []) :
    (emRun emReset pairs)._predictions = (pairs.map (fun pr => pr.1.data)).flatten ∧
    (emRun emReset pairs)._targets = (pairs.map (fun pr => pr.2.data)).flatten ∧
    mdaeCompute (emRun emReset pairs) =
      .ok (_torch_median ⟨[((pairs.map (fun pr => pr.1.data)).flatten).length],
        List.zipWith (fun a b => qabs (a - b))
          ((pairs.map (fun pr => pr.2.data)).flatten)
          ((pairs.map (fun pr => pr.1.data)).flatten), false⟩) := by
  have hchar := emRun_characterize pairs hv emReset
  have hpred : (emRun emReset pairs)._predictions
      = (pairs.map (fun pr => pr.1.data)).flatten := by
    rw [hchar]
    simp [emReset]
  have htgt : (emRun emReset pairs)._targets
      = (pairs.map (fun pr => pr.2.data)).flatten := by
    rw [hchar]
    simp [emReset]
  refine ⟨hpred, htgt, ?_⟩
  unfold mdaeCompute emCompute
  rw [hpred, htgt, if_neg (by rw [List.length_eq_zero]; exact hne)]
  unfold median_absolute_error_compute_fn Tensor.view_as
  rw [if_pos (flatten_len_eq pairs hv)]
  simp [Tensor.sub, Tensor.abs, List.map_zipWith]

/-- First concrete pair for the C8 witness. -/
def wpairA : Tensor × Tensor := (⟨[2], [1, 2], false⟩, ⟨[2], [0, 0], false⟩)

/-- Second concrete pair for the C8 witness. -/
def wpairB : Tensor × Tensor := (⟨[1], [3], false⟩, ⟨[1], [0], false⟩)

/-- Witness for C8 at a concrete two-batch epoch. -/
theorem mdae_retention_and_median_witness :
    ((∀ pr ∈ [wpairA, wpairB], pr.1.data.length = pr.2.data.length) ∧
      ([wpairA, wpairB].map (fun pr => pr.1.data)).flatten ≠ []) ∧
    ((emRun emReset [wpairA, wpairB])._predictions
        = ([wpairA, wpairB].map (fun pr => pr.1.data)).flatten ∧
      (emRun emReset [wpairA, wpairB])._targets
        = ([wpairA, wpairB].map (fun pr => pr.2.data)).flatten ∧
      mdaeCompute (emRun emReset [wpairA, wpairB]) =
        .ok (_torch_median ⟨[(([wpairA, wpairB].map (fun pr => pr.1.data)).flatten).length],
          List.zipWith (fun a b => qabs (a - b))
            (([wpairA, wpairB].map (fun pr => pr.2.data)).flatten)
            (([wpairA, wpairB].map (fun pr => pr.1.data)).flatten), false⟩)) :=
  ⟨⟨by decide, by decide⟩,
    mdae_retention_and_median [wpairA, wpairB] (by decide) (by decide)⟩

/-- C9: The mean-squared-error metric accepts batches of shape `(N, k)`
with `k > 1` as well; `compute()` then returns the sum of squared
differences over all `N*k` elements divided by the number of rows `N` —
the accumulated sample count counts rows (`y.shape[0]`), not elements. -/
theorem mse_multi_column (N k : ℕ) (p t : Tensor)
    (hps : p.shape = [N, k]) (hts : t.shape = [N, k])
    (hpw : p.wf) (htw : t.wf) (hN : 0 < N) :
    p.data.length = N * k ∧ t.data.length = N * k ∧
    (mseUpdateRun mseReset ⟨p, t⟩)._num_examples = N ∧
    mseCompute (mseUpdateRun mseReset ⟨p, t⟩)
      = .ok (sqErrSum p.data t.data / (N : ℚ)) := by
  unfold Tensor.wf at hpw htw
  rw [hps] at hpw
  rw [hts] at htw
  have hpl : p.data.length = N * k := by simpa using hpw
  have htl : t.data.length = N * k := by simpa using htw
  have hv : (MSEBatch.mk p t).valid := by
    unfold MSEBatch.valid
    rw [hpl, htl]
  have hcount : batchCount ⟨p, t⟩ = N := by simp [batchCount, hts]
  rw [mseUpdateRun_valid _ _ hv]
  refine ⟨hpl, htl, ?_, ?_⟩
  · simp [mseReset, hcount]
  · simp [mseCompute, mseReset, hcount, batchSq, hN.ne']

/-- Concrete `(2, 3)` prediction batch for the C9 witness. -/
def wideP : Tensor := ⟨[2, 3], [1, 1, 1, 1, 1, 1], false⟩

/-- Concrete `(2, 3)` target batch for the C9 witness. -/
def wideT : Tensor := ⟨[2, 3], [0, 0, 0, 0, 0, 0], false⟩

/-- Witness for C9 at a concrete `(2, 3)`-shaped batch. -/
theorem mse_multi_column_witness :
    (wideP.shape = [2, 3] ∧ wideT.shape = [2, 3] ∧ wideP.wf ∧ wideT.wf ∧ 0 < 2) ∧
    (wideP.data.length = 2 * 3 ∧ wideT.data.length = 2 * 3 ∧
      (mseUpdateRun mseReset ⟨wideP, wideT⟩)._num_examples = 2 ∧
      mseCompute (mseUpdateRun mseReset ⟨wideP, wideT⟩)
        = .ok (sqErrSum wideP.data wideT.data / (2 : ℚ))) :=
  ⟨⟨rfl, rfl, by decide, by decide, by decide⟩,
    mse_multi_column 2 3 wideP wideT rfl rfl (by decide) (by decide) (by decide)⟩

/-- C10: the median-absolute-error per-batch function reshapes the target
to the prediction's shape (`target.view_as(prediction)`) before
subtracting, so any target/prediction pair with equal element counts —
in particular `(N,)` against `(N, 1)` or vice versa — is accepted, and the
result is the median of the element-wise absolute differences taken after
that reshape. -/
theorem median_compute_fn_view_as (y_pred y : Tensor)
    (h : y.data.length = y_pred.data.length) :
    median_absolute_error_compute_fn y_pred y =
      .ok (_torch_median ⟨y_pred.shape,
        List.zipWith (fun a b => qabs (a - b)) y.data y_pred.data,
        y.requires_grad || y_pred.requires_grad⟩) := by
  unfold median_absolute_error_compute_fn Tensor.view_as
  rw [if_pos h]
  simp [Tensor.sub, Tensor.abs, List.map_zipWith]

/-- Witness for C10: a target of shape `(2,)` against a prediction of
shape `(2, 1)`. -/
theorem median_compute_fn_view_as_witness :
    ((⟨[2], [0, 4], false⟩ : Tensor).data.length
        = (⟨[2, 1], [1, 2], false⟩ : Tensor).data.length) ∧
    median_absolute_error_compute_fn ⟨[2, 1], [1, 2], false⟩ ⟨[2], [0, 4], false⟩ =
      .ok (_torch_median ⟨(⟨[2, 1], [1, 2], false⟩ : Tensor).shape,
        List.zipWith (fun a b => qabs (a - b))
          (⟨[2], [0, 4], false⟩ : Tensor).data (⟨[2, 1], [1, 2], false⟩ : Tensor).data,
        (⟨[2], [0, 4], false⟩ : Tensor).requires_grad
          || (⟨[2, 1], [1, 2], false⟩ : Tensor).requires_grad⟩) :=
  ⟨by decide, median_compute_fn_view_as ⟨[2, 1], [1, 2], false⟩ ⟨[2], [0, 4], false⟩ (by decide)⟩

end Ignite
